import Mathlib

/-!
Verification of the insurance analytics frontend and of the spec of its
aggregation core. Frontend utilities (formatters, filter bar option lists,
the yoy helper calcChange, the margin view fetch logic) are embedded from
the TypeScript sources. The backend aggregators (margin, retention, tier,
efficiency), which live outside the frontend sources, are modelled from the
spec where a claim needs them; such definitions are marked in their doc
comments.
-/

namespace Insurance

/-- The ten configured chart colors, CHART_COLORS in the formatters module. -/
def CHART_COLORS : List String :=
  ["#0b3d91", "#2e8b6e", "#c43d4b", "#f0a202", "#1f4fa3",
   "#3a7bd5", "#7a5ea7", "#0f8aa3", "#9b6a3a", "#4b7f52"]

/-- getChartColor from the formatters module: the entry of CHART_COLORS at
index mod length. A JavaScript out of bounds read would give undefined,
modelled as none. -/
def getChartColor (index : Nat) : Option String :=
  CHART_COLORS.get? (index % CHART_COLORS.length)

/-- GROUP_BY_LABELS from the formatters module: the grouping dimension keys
with their Chinese labels, in insertion order. -/
def GROUP_BY_LABELS : List (String × String) :=
  [("region", "区域"), ("join_year", "入职年份"), ("personal_level", "个人职级"),
   ("manager_level", "经理职级"), ("director_level", "总监职级"),
   ("education", "学历"), ("is_peer", "是否同业"),
   ("fyp_tier", "FYP分层"), ("ape_tier", "APE分层")]

/-- The option keys offered by the grouping selector in FilterBar, which maps
over the entries of GROUP_BY_LABELS. -/
def groupByOptions : List String := GROUP_BY_LABELS.map Prod.fst

/-- The option keys offered by the cross grouping selector in FilterBar: the
entries of GROUP_BY_LABELS whose key differs from the selected primary
dimension. -/
def crossGroupByOptions (groupBy : String) : List String :=
  (GROUP_BY_LABELS.filter (fun kv => kv.1 != groupBy)).map Prod.fst

/-- The filter fields rendered inside the advanced filter modal of FilterBar,
in order of appearance. -/
def advancedFilterFields : List String :=
  ["region", "join_year", "is_peer", "personal_level", "manager_level",
   "director_level", "fyp_tier", "ape_tier", "md_qualified"]

/-- calcChange, defined identically in MarginAnalysis and EfficiencyTrend:
null when current or prev is undefined or prev is 0, otherwise
(current - prev) / prev. -/
def calcChange : Option ℚ → Option ℚ → Option ℚ
  | none, _ => none
  | some _, none => none
  | some c, some p => if p = 0 then none else some ((c - p) / p)

/-- Modelled from the spec: the backend efficiency trend aggregator is not
among the frontend sources. Per the spec, the per year yoy change equals
(value of the year minus value of the prior year) divided by the prior
value, and is null when the prior value is absent or zero. -/
def trendYoyChange (cur : ℚ) (prior : Option ℚ) : Option ℚ :=
  match prior with
  | none => none
  | some p => if p = 0 then none else some ((cur - p) / p)

/-- Ascending numeric sort of the known years, as fetchData in MarginAnalysis
does before picking the previous year. -/
def sortedYears (years : List Int) : List Int := years.mergeSort

/-- The previous year picked by fetchData in MarginAnalysis: the last element
of the ascending sorted known years that are strictly below the selected
year, none when no such year exists. -/
def prevYearOf (years : List Int) (selectedYear : Int) : Option Int :=
  ((sortedYears years).filter (fun y => decide (y < selectedYear))).getLast?

/-- The summary fields of a margin aggregation result that fetchData feeds
into the yoy comparison. -/
structure Summary where
  total_fyc : ℚ
  total_margin : ℚ
  margin_rate : ℚ
  agent_count : ℚ
  deriving DecidableEq

/-- The record of the four relative deltas built by fetchData. -/
structure SummaryYoy where
  total_fyc : Option ℚ
  total_margin : Option ℚ
  margin_rate : Option ℚ
  agent_count : Option ℚ
  deriving DecidableEq

/-- The summaryTrends state set by fetchData: the yoy deltas together with
the pair of compared years. -/
structure SummaryTrends where
  yoy : SummaryYoy
  current : Int
  prev : Int
  deriving DecidableEq

/-- The yoy record fetchData builds from the current and previous summaries
through calcChange. -/
def mkYoy (cur prevS : Summary) : SummaryYoy :=
  ⟨calcChange (some cur.total_fyc) (some prevS.total_fyc),
   calcChange (some cur.total_margin) (some prevS.total_margin),
   calcChange (some cur.margin_rate) (some prevS.margin_rate),
   calcChange (some cur.agent_count) (some prevS.agent_count)⟩

/-- The years for which fetchData invokes the margin aggregator: always the
selected year, and additionally the computed previous year when that value
is truthy in JavaScript, that is defined and nonzero. -/
def marginInvocations (years : List Int) (selectedYear : Int) : List Int :=
  match prevYearOf years selectedYear with
  | some p => if p ≠ 0 then [selectedYear, p] else [selectedYear]
  | none => [selectedYear]

/-- summaryTrends as computed by fetchData: null unless the previous year is
truthy, in which case the aggregator results for the two years feed mkYoy. -/
def summaryTrends (agg : Int → Summary) (years : List Int) (selectedYear : Int) :
    Option SummaryTrends :=
  match prevYearOf years selectedYear with
  | some p =>
      if p ≠ 0 then some ⟨mkYoy (agg selectedYear) (agg p), selectedYear, p⟩
      else none
  | none => none

/-- A constant aggregator used to instantiate fetchData facts on concrete
inputs. -/
def constSummaryAgg : Int → Summary := fun _ => ⟨1, 1, 1, 1⟩

/-- Modelled from the spec: the backend margin aggregator is not among the
frontend sources. One enriched agent row for the requested year, carrying
the monetary fields the aggregator consumes. -/
structure AgentRow where
  fyc : ℚ
  income : ℚ
  points : ℚ
  social_security : ℚ
  fyp : ℚ
  ape : ℚ
  deriving DecidableEq

/-- Modelled from the spec: per agent margin is FYC minus personal income
minus accrued points minus the employer social security share. -/
def agentMargin (r : AgentRow) : ℚ := r.fyc - r.income - r.points - r.social_security

/-- The per scope statistics of the margin aggregator; margin_rate is an
optional value, null meaning undefined. -/
structure GroupStats where
  group_name : String
  agent_count : Nat
  total_fyc : ℚ
  total_income : ℚ
  total_points : ℚ
  total_social_security : ℚ
  total_margin : ℚ
  margin_rate : Option ℚ
  deriving DecidableEq

/-- Modelled from the spec: the statistics of one scope, a group, a cross
cell or the summary row; margin_rate is null when the FYC sum is zero and
otherwise equals the margin sum divided by the FYC sum. -/
def mkGroupStats (name : String) (rows : List AgentRow) : GroupStats :=
  ⟨name, rows.length, (rows.map AgentRow.fyc).sum, (rows.map AgentRow.income).sum,
   (rows.map AgentRow.points).sum, (rows.map AgentRow.social_security).sum,
   (rows.map agentMargin).sum,
   if (rows.map AgentRow.fyc).sum = 0 then none
   else some ((rows.map agentMargin).sum / (rows.map AgentRow.fyc).sum)⟩

/-- Distinct values in first seen order, the deterministic group key order
the spec requires. -/
def distinctVals {α : Type} [DecidableEq α] (keys : List α) : List α :=
  keys.foldl (fun acc k => if k ∈ acc then acc else acc ++ [k]) []

/-- Modelled from the spec: the single dimension grouping of the margin
aggregator, one stats row per distinct value of the chosen dimension. -/
def marginGroups (keyOf : AgentRow → String) (rows : List AgentRow) :
    List GroupStats :=
  (distinctVals (rows.map keyOf)).map
    (fun v => mkGroupStats v (rows.filter (fun r => keyOf r == v)))

/-- Modelled from the spec: the whole scope summary row of the margin
aggregator, independent of the grouping. -/
def marginSummary (rows : List AgentRow) : GroupStats := mkGroupStats "summary" rows

/-- Modelled from the spec: the cross dimension grouping, a matrix of cells
carrying the same per cell statistics. -/
def marginMatrix (rowKey colKey : AgentRow → String) (rows : List AgentRow) :
    List (String × List GroupStats) :=
  (distinctVals (rows.map rowKey)).map
    (fun rv =>
      (rv, (distinctVals (rows.map colKey)).map
        (fun cv => mkGroupStats cv
          (rows.filter (fun r => rowKey r == rv && colKey r == cv)))))

/-- A constant grouping key used to instantiate aggregator facts on concrete
inputs. -/
def constKey : AgentRow → String := fun _ => "all"

/-- The five ordered tier bands of the tier classifier. -/
inductive TierBand where
  | band1
  | band2
  | band3
  | band4
  | band5
  deriving DecidableEq

/-- Modelled from the spec: the backend tier classifier is not among the
frontend sources. The five fixed monetary boundaries at 5, 10, 30 and 50
times ten thousand, each boundary belonging to the higher band. -/
def tier (amount : ℚ) : TierBand :=
  if amount < 50000 then TierBand.band1
  else if amount < 100000 then TierBand.band2
  else if amount < 300000 then TierBand.band3
  else if amount < 500000 then TierBand.band4
  else TierBand.band5

/-- Modelled from the spec: the FYP tier of an agent row, the tier bands
applied to the FYP amount. -/
def fypTierOf (r : AgentRow) : TierBand := tier r.fyp

/-- Modelled from the spec: the APE tier of an agent row, the same tier
bands applied to the APE amount. -/
def apeTierOf (r : AgentRow) : TierBand := tier r.ape

/-- Modelled from the spec: the backend retention engine is not among the
frontend sources. An agent as the engine sees it: join year, grouping value
and the FYP entries per year. -/
structure RAgent where
  join_year : Int
  group_value : String
  fyps : List (Int × ℚ)
  deriving DecidableEq

/-- The FYP of an agent in a year, zero when no entry exists. -/
def fypAt (a : RAgent) (y : Int) : ℚ :=
  ((a.fyps.find? (fun pr => pr.1 == y)).map Prod.snd).getD 0

/-- Modelled from the spec: an agent is active in a year when the FYP of
that year is above zero. -/
def isActive (a : RAgent) (y : Int) : Bool := decide (0 < fypAt a y)

/-- Modelled from the FormulaGuide wording: the baseline year is the join
year when it is 2022 or later, and 2022 when the join year is earlier. -/
def baselineYear (joinYear : Int) : Int :=
  if joinYear < 2022 then 2022 else joinYear

/-- One retention entry of a cohort. -/
structure RetentionYearData where
  year : Int
  years_after_join : Nat
  count : Nat
  fyp : ℚ
  count_retention : ℚ
  fyp_retention : Option ℚ
  deriving DecidableEq

/-- One cohort of the retention engine. -/
structure CohortRetention where
  join_year : Int
  base_count : Nat
  base_fyp : ℚ
  years : List RetentionYearData
  deriving DecidableEq

/-- Modelled from the spec: the members of the cohort with baseline year b,
the agents whose baseline year is b and who were active in b. -/
def cohortMembers (agents : List RAgent) (b : Int) : List RAgent :=
  agents.filter (fun a => baselineYear a.join_year == b && isActive a b)

/-- Modelled from the spec: the retention entry for offset k from baseline
b; the FYP sum ranges over all cohort members, counting zero for members
inactive in that year, and fyp_retention is null when the base FYP is
zero. -/
def retentionYear (members : List RAgent) (bc : Nat) (bf : ℚ) (b : Int) (k : Nat) :
    RetentionYearData :=
  ⟨b + (k : Int), k, (members.filter (fun a => isActive a (b + (k : Int)))).length,
   (members.map (fun a => fypAt a (b + (k : Int)))).sum,
   ((members.filter (fun a => isActive a (b + (k : Int)))).length : ℚ) / (bc : ℚ),
   if bf = 0 then none
   else some ((members.map (fun a => fypAt a (b + (k : Int)))).sum / bf)⟩

/-- Modelled from the spec: the cohort for baseline year b, with retention
entries for offsets 0 to 3; no cohort is emitted when the baseline has no
active agents. -/
def mkCohort (agents : List RAgent) (b : Int) : Option CohortRetention :=
  if (cohortMembers agents b).length = 0 then none
  else some ⟨b, (cohortMembers agents b).length,
    ((cohortMembers agents b).map (fun a => fypAt a b)).sum,
    [0, 1, 2, 3].map
      (fun k => retentionYear (cohortMembers agents b)
        ((cohortMembers agents b).length)
        (((cohortMembers agents b).map (fun a => fypAt a b)).sum) b k)⟩

/-- Modelled from the spec: the retention engine output, cohorts within each
value of the chosen dimension, in first seen order. -/
def retentionGroups (agents : List RAgent) : List (String × List CohortRetention) :=
  (distinctVals (agents.map RAgent.group_value)).map
    (fun g =>
      (g, (distinctVals ((agents.filter (fun a => a.group_value == g)).map
            (fun a => baselineYear a.join_year))).filterMap
          (fun b => mkCohort (agents.filter (fun a => a.group_value == g)) b)))

/-- A concrete agent used to instantiate retention facts: joined 2022, FYP 1
in 2022 and FYP 2 in 2023. -/
def agentUp : RAgent := ⟨2022, "g", [(2022, 1), (2023, 2)]⟩

/-- The cohort the retention engine emits for agentUp alone. -/
def cohortUp : CohortRetention :=
  ⟨2022, 1, 1,
   [⟨2022, 0, 1, 1, 1, some 1⟩, ⟨2023, 1, 1, 2, 1, some 2⟩,
    ⟨2024, 2, 0, 0, 0, some 0⟩, ⟨2025, 3, 0, 0, 0, some 0⟩]⟩

/-- A fallback retention entry for list indexing in concrete statements. -/
def defaultRetentionYear : RetentionYearData := ⟨0, 0, 0, 0, 0, none⟩

end Insurance

namespace Insurance

/-- C9: for every index, getChartColor equals the color list entry at index
mod 10, it always yields one of the ten configured colors, and it is
periodic with period 10. -/
theorem getChartColor_mod_ten (i : Nat) :
    getChartColor i = CHART_COLORS.get? (i % 10) ∧
    (∃ c, getChartColor i = some c ∧ c ∈ CHART_COLORS) ∧
    getChartColor (i + 10) = getChartColor i := by
  have hlen : CHART_COLORS.length = 10 := rfl
  have hlt : i % 10 < 10 := Nat.mod_lt _ (by norm_num)
  have hbound : ∀ j : Nat, j < 10 → ∃ c ∈ CHART_COLORS, CHART_COLORS.get? j = some c := by
    decide
  refine ⟨rfl, ?_, ?_⟩
  · obtain ⟨c, hc, hget⟩ := hbound (i % 10) hlt
    refine ⟨c, ?_, hc⟩
    show CHART_COLORS.get? (i % CHART_COLORS.length) = some c
    rw [hlen]
    exact hget
  · show CHART_COLORS.get? ((i + 10) % CHART_COLORS.length) =
      CHART_COLORS.get? (i % CHART_COLORS.length)
    rw [hlen, Nat.add_mod_right]

/-- C10: a key is offered by the cross grouping selector exactly when it is a
grouping dimension different from the selected primary dimension, so a
chosen cross dimension never equals the primary dimension. -/
theorem crossGroupByOptions_spec (g k : String) :
    (k ∈ crossGroupByOptions g ↔ k ∈ groupByOptions ∧ k ≠ g) ∧
    (k ∈ crossGroupByOptions g → k ≠ g) := by
  have h : k ∈ crossGroupByOptions g ↔ k ∈ groupByOptions ∧ k ≠ g := by
    unfold crossGroupByOptions groupByOptions
    simp only [List.mem_map, List.mem_filter, bne_iff_ne, ne_eq]
    constructor
    · rintro ⟨kv, ⟨hkv, hne⟩, rfl⟩
      exact ⟨⟨kv, hkv, rfl⟩, hne⟩
    · rintro ⟨⟨kv, hkv, rfl⟩, hne⟩
      exact ⟨kv, ⟨hkv, hne⟩, rfl⟩
  exact ⟨h, fun hk => (h.mp hk).2⟩

/-- Witness for C10 at a concrete input: join_year is offered as a cross
dimension for primary dimension region and differs from it. -/
theorem crossGroupByOptions_spec_witness :
    "join_year" ∈ crossGroupByOptions "region" ∧ "join_year" ≠ "region" :=
  ⟨(crossGroupByOptions_spec "region" "join_year").1.mpr ⟨by decide, by decide⟩,
   by decide⟩

/-- C8 counterexample: md_qualified is not among the keys offered by the
grouping dimension selector, which iterates over GROUP_BY_LABELS. -/
theorem md_qualified_not_groupable : "md_qualified" ∉ groupByOptions := by
  decide

/-- C8 amended: the grouping selector offers exactly region, join_year, the
three levels, education, peer flag, FYP tier and APE tier; md_qualified is
not offered there and is available only as an advanced filter field. -/
theorem groupByOptions_exact :
    groupByOptions =
      ["region", "join_year", "personal_level", "manager_level",
       "director_level", "education", "is_peer", "fyp_tier", "ape_tier"] ∧
    "md_qualified" ∉ groupByOptions ∧
    "md_qualified" ∈ advancedFilterFields := by
  refine ⟨rfl, by decide, by decide⟩

/-- C2: calcChange on a present current value is null exactly when the prior
value is absent or zero, otherwise it equals the relative delta; and the
spec level per year yoy change of the efficiency trend coincides with
calcChange. -/
theorem yoy_change_null_iff (cur p : ℚ) :
    calcChange (some cur) none = none ∧
    (calcChange (some cur) (some p) = none ↔ p = 0) ∧
    (p ≠ 0 → calcChange (some cur) (some p) = some ((cur - p) / p)) ∧
    trendYoyChange cur none = calcChange (some cur) none ∧
    trendYoyChange cur (some p) = calcChange (some cur) (some p) := by
  refine ⟨rfl, ?_, ?_, rfl, rfl⟩
  · by_cases hp : p = 0 <;> simp [calcChange, hp]
  · intro hp
    simp [calcChange, hp]

/-- Witness for C2 at a concrete input: current 3 and prior 2. -/
theorem yoy_change_null_iff_witness :
    calcChange (some 3) none = none ∧
    (calcChange (some 3) (some 2) = none ↔ (2 : ℚ) = 0) ∧
    ((2 : ℚ) ≠ 0 → calcChange (some 3) (some 2) = some ((3 - 2) / 2)) ∧
    trendYoyChange 3 none = calcChange (some 3) none ∧
    trendYoyChange 3 (some 2) = calcChange (some 3) (some 2) :=
  yoy_change_null_iff 3 2

/-- In an ascending sorted list the last element bounds every element. -/
theorem sorted_le_getLast {l : List Int}
    (hs : l.Pairwise (fun a b : Int => a ≤ b)) {p : Int}
    (h : l.getLast? = some p) : ∀ x ∈ l, x ≤ p := by
  induction l with
  | nil => simp at h
  | cons a t ih =>
    rcases List.pairwise_cons.mp hs with ⟨ha, ht⟩
    cases t with
    | nil =>
      simp only [List.getLast?_singleton, Option.some.injEq] at h
      subst h
      intro x hx
      simp only [List.mem_singleton] at hx
      subst hx
      exact le_refl _
    | cons b t2 =>
      rw [List.getLast?_cons_cons] at h
      have hp : p ∈ b :: t2 := List.mem_of_getLast?_eq_some h
      intro x hx
      rcases List.mem_cons.mp hx with rfl | hx2
      · exact ha p hp
      · exact ih ht h x hx2

/-- The previous year computed by fetchData is a known year strictly below
the selected year, and it is the greatest such year. -/
theorem prevYearOf_greatest {years : List Int} {sel p : Int}
    (hp : prevYearOf years sel = some p) :
    p ∈ years ∧ p < sel ∧ ∀ q ∈ years, q < sel → q ≤ p := by
  unfold prevYearOf at hp
  have hmem := List.mem_of_getLast?_eq_some hp
  rw [List.mem_filter] at hmem
  have hsorted : (sortedYears years).Pairwise (fun a b : Int => a ≤ b) :=
    List.sorted_mergeSort' years
  have hfs : ((sortedYears years).filter
      (fun y => decide (y < sel))).Pairwise (fun a b : Int => a ≤ b) :=
    hsorted.filter _
  refine ⟨?_, by simpa using hmem.2, ?_⟩
  · have := hmem.1
    unfold sortedYears at this
    simpa using this
  · intro q hq hql
    refine sorted_le_getLast hfs hp q (List.mem_filter.mpr ⟨?_, by simpa using hql⟩)
    unfold sortedYears
    simpa using hq

/-- The previous year is none exactly when no known year is strictly below
the selected year. -/
theorem prevYearOf_none_iff (years : List Int) (sel : Int) :
    prevYearOf years sel = none ↔ ∀ q ∈ years, ¬ q < sel := by
  unfold prevYearOf
  rw [List.getLast?_eq_none_iff, List.filter_eq_nil_iff]
  constructor
  · intro hf q hq
    have := hf q (by unfold sortedYears; simpa using hq)
    simpa using this
  · intro hf q hq
    have hq2 : q ∈ years := by
      have := hq
      unfold sortedYears at this
      simpa using this
    simpa using hf q hq2

/-- C3 counterexample: with known years containing only the year 0 and
selected year 2024, a known year strictly precedes the selected year, yet
fetchData invokes the aggregator only once and sets summaryTrends to null,
because the JavaScript truthiness test treats the year 0 as absent. -/
theorem margin_yoy_year_zero_counterexample :
    (0 : Int) ∈ [(0 : Int)] ∧ (0 : Int) < 2024 ∧
    prevYearOf [0] 2024 = some 0 ∧
    summaryTrends constSummaryAgg [0] 2024 = none ∧
    marginInvocations [0] 2024 = [2024] := by
  have h : prevYearOf [0] 2024 = some 0 := by
    unfold prevYearOf sortedYears
    simp
  refine ⟨by decide, by decide, h, ?_, ?_⟩
  · unfold summaryTrends
    rw [h]
    simp
  · unfold marginInvocations
    rw [h]
    simp

/-- C3 amended: when the greatest known year strictly below the selected
year exists and is nonzero, fetchData invokes the margin aggregator exactly
twice, for the selected year and for that greatest preceding year, and
stores the four relative deltas built by mkYoy; when no known year precedes
the selected year, or the greatest preceding year is the year 0 and hence
falsy, summaryTrends is set to null and the aggregator runs only once. -/
theorem margin_yoy_comparison (agg : Int → Summary)
    (years years2 : List Int) (sel sel2 p q q2 : Int)
    (hp : prevYearOf years sel = some p) (hp0 : p ≠ 0) :
    p ∈ years ∧ p < sel ∧ (q ∈ years → q < sel → q ≤ p) ∧
    marginInvocations years sel = [sel, p] ∧
    summaryTrends agg years sel = some ⟨mkYoy (agg sel) (agg p), sel, p⟩ ∧
    (prevYearOf years2 sel2 = none → (q2 ∈ years2 → ¬ q2 < sel2) ∧
      summaryTrends agg years2 sel2 = none ∧
      marginInvocations years2 sel2 = [sel2]) ∧
    (prevYearOf years2 sel2 = some 0 → summaryTrends agg years2 sel2 = none ∧
      marginInvocations years2 sel2 = [sel2]) := by
  obtain ⟨h1, h2, h3⟩ := prevYearOf_greatest hp
  refine ⟨h1, h2, fun hq hql => h3 q hq hql, ?_, ?_, ?_, ?_⟩
  · unfold marginInvocations
    rw [hp]
    simp [hp0]
  · unfold summaryTrends
    rw [hp]
    simp [hp0]
  · intro hnone
    refine ⟨fun hq2 => (prevYearOf_none_iff years2 sel2).mp hnone q2 hq2, ?_, ?_⟩
    · unfold summaryTrends
      rw [hnone]
    · unfold marginInvocations
      rw [hnone]
  · intro hzero
    constructor
    · unfold summaryTrends
      rw [hzero]
      simp
    · unfold marginInvocations
      rw [hzero]
      simp

/-- Witness for C3 at concrete inputs: years 2022 and 2023 with selected
year 2024 give a comparison against 2023; the year list containing only 0
gives no comparison. -/
theorem margin_yoy_comparison_witness :
    (2023 : Int) ∈ [(2022 : Int), 2023] ∧ (2023 : Int) < 2024 ∧
    ((2022 : Int) ∈ [(2022 : Int), 2023] → (2022 : Int) < 2024 →
      (2022 : Int) ≤ 2023) ∧
    marginInvocations [2022, 2023] 2024 = [2024, 2023] ∧
    summaryTrends constSummaryAgg [2022, 2023] 2024 =
      some ⟨mkYoy (constSummaryAgg 2024) (constSummaryAgg 2023), 2024, 2023⟩ ∧
    (prevYearOf [0] 2024 = none → ((0 : Int) ∈ [(0 : Int)] → ¬ (0 : Int) < 2024) ∧
      summaryTrends constSummaryAgg [0] 2024 = none ∧
      marginInvocations [0] 2024 = [2024]) ∧
    (prevYearOf [0] 2024 = some 0 → summaryTrends constSummaryAgg [0] 2024 = none ∧
      marginInvocations [0] 2024 = [2024]) :=
  margin_yoy_comparison constSummaryAgg [2022, 2023] [0] 2024 2024 2023 2022 0
    (by
      have hsort : sortedYears [2022, 2023] = [2022, 2023] :=
        List.mergeSort_eq_self (by decide)
      unfold prevYearOf
      rw [hsort]
      decide)
    (by decide)

/-- Every scope statistic produced by mkGroupStats satisfies the margin rate
contract of the spec. -/
theorem mkGroupStats_margin_rate (name : String) (rows : List AgentRow) :
    ((mkGroupStats name rows).margin_rate = none ↔
      (mkGroupStats name rows).total_fyc = 0) ∧
    ((mkGroupStats name rows).total_fyc ≠ 0 →
      (mkGroupStats name rows).margin_rate =
        some ((mkGroupStats name rows).total_margin /
          (mkGroupStats name rows).total_fyc)) := by
  by_cases h : (rows.map AgentRow.fyc).sum = 0 <;> simp [mkGroupStats, h]

/-- C1: in every scope of a margin analysis result, a single dimension
group, a cross cell or the summary row, margin_rate is null exactly when
that scope has a zero FYC total, and otherwise equals the margin total
divided by the FYC total. -/
theorem margin_rate_null_iff (keyOf rk ck : AgentRow → String)
    (rows : List AgentRow) (g : GroupStats)
    (hg : g ∈ marginGroups keyOf rows ∨ g = marginSummary rows ∨
      ∃ rc ∈ marginMatrix rk ck rows, g ∈ rc.2) :
    (g.margin_rate = none ↔ g.total_fyc = 0) ∧
    (g.total_fyc ≠ 0 → g.margin_rate = some (g.total_margin / g.total_fyc)) := by
  rcases hg with hg | hg | ⟨rc, hrc, hcell⟩
  · unfold marginGroups at hg
    rw [List.mem_map] at hg
    obtain ⟨v, hv, rfl⟩ := hg
    exact mkGroupStats_margin_rate _ _
  · subst hg
    exact mkGroupStats_margin_rate "summary" rows
  · unfold marginMatrix at hrc
    rw [List.mem_map] at hrc
    obtain ⟨rv, hrv, rfl⟩ := hrc
    simp only [List.mem_map] at hcell
    obtain ⟨cv, hcv, rfl⟩ := hcell
    exact mkGroupStats_margin_rate _ _

/-- Witness for C1 at a concrete input: the summary scope over one agent
row with FYC 10, income 2, points 1 and social security 1. -/
theorem margin_rate_null_iff_witness :
    ((marginSummary [⟨10, 2, 1, 1, 5, 5⟩]).margin_rate = none ↔
      (marginSummary [⟨10, 2, 1, 1, 5, 5⟩]).total_fyc = 0) ∧
    ((marginSummary [⟨10, 2, 1, 1, 5, 5⟩]).total_fyc ≠ 0 →
      (marginSummary [⟨10, 2, 1, 1, 5, 5⟩]).margin_rate =
        some ((marginSummary [⟨10, 2, 1, 1, 5, 5⟩]).total_margin /
          (marginSummary [⟨10, 2, 1, 1, 5, 5⟩]).total_fyc)) :=
  margin_rate_null_iff constKey constKey constKey [⟨10, 2, 1, 1, 5, 5⟩]
    (marginSummary [⟨10, 2, 1, 1, 5, 5⟩]) (Or.inr (Or.inl rfl))

/-- C6: tier is total and maps a nonnegative amount into exactly one of the
five ordered non overlapping bands, with every boundary in the higher band,
in particular 50000 is band 2; the identical bands are applied independently
to the FYP and the APE amount of an agent row. -/
theorem tier_bands (a : ℚ) (r : AgentRow) (ha : 0 ≤ a) :
    (tier a = TierBand.band1 ↔ 0 ≤ a ∧ a < 50000) ∧
    (tier a = TierBand.band2 ↔ 50000 ≤ a ∧ a < 100000) ∧
    (tier a = TierBand.band3 ↔ 100000 ≤ a ∧ a < 300000) ∧
    (tier a = TierBand.band4 ↔ 300000 ≤ a ∧ a < 500000) ∧
    (tier a = TierBand.band5 ↔ 500000 ≤ a) ∧
    tier (50000 : ℚ) = TierBand.band2 ∧
    fypTierOf r = tier r.fyp ∧ apeTierOf r = tier r.ape := by
  have t1 : tier a = TierBand.band1 ↔ a < 50000 := by
    unfold tier
    split_ifs with h1 h2 h3 h4 <;> simp_all <;>
      first
        | linarith
        | (intro h; linarith)
        | (rintro ⟨hx, hy⟩; linarith)
        | (constructor <;> intro hz <;> linarith)
  have t2 : tier a = TierBand.band2 ↔ ¬ a < 50000 ∧ a < 100000 := by
    unfold tier
    split_ifs with h1 h2 h3 h4 <;> simp_all <;>
      first
        | linarith
        | (intro h; linarith)
        | (rintro ⟨hx, hy⟩; linarith)
        | (constructor <;> intro hz <;> linarith)
  have t3 : tier a = TierBand.band3 ↔ ¬ a < 100000 ∧ a < 300000 := by
    unfold tier
    split_ifs with h1 h2 h3 h4 <;> simp_all <;>
      first
        | linarith
        | (intro h; linarith)
        | (rintro ⟨hx, hy⟩; linarith)
        | (constructor <;> intro hz <;> linarith)
  have t4 : tier a = TierBand.band4 ↔ ¬ a < 300000 ∧ a < 500000 := by
    unfold tier
    split_ifs with h1 h2 h3 h4 <;> simp_all <;>
      first
        | linarith
        | (intro h; linarith)
        | (rintro ⟨hx, hy⟩; linarith)
        | (constructor <;> intro hz <;> linarith)
  have t5 : tier a = TierBand.band5 ↔ ¬ a < 500000 := by
    unfold tier
    split_ifs with h1 h2 h3 h4 <;> simp_all <;>
      first
        | linarith
        | (intro h; linarith)
        | (rintro ⟨hx, hy⟩; linarith)
        | (constructor <;> intro hz <;> linarith)
  have h50 : tier (50000 : ℚ) = TierBand.band2 := by norm_num [tier]
  refine ⟨?_, ?_, ?_, ?_, ?_, h50, rfl, rfl⟩
  · exact ⟨fun h => ⟨ha, t1.mp h⟩, fun h => t1.mpr h.2⟩
  · exact ⟨fun h => ⟨not_lt.mp (t2.mp h).1, (t2.mp h).2⟩,
      fun h => t2.mpr ⟨not_lt.mpr h.1, h.2⟩⟩
  · exact ⟨fun h => ⟨not_lt.mp (t3.mp h).1, (t3.mp h).2⟩,
      fun h => t3.mpr ⟨not_lt.mpr h.1, h.2⟩⟩
  · exact ⟨fun h => ⟨not_lt.mp (t4.mp h).1, (t4.mp h).2⟩,
      fun h => t4.mpr ⟨not_lt.mpr h.1, h.2⟩⟩
  · exact ⟨fun h => not_lt.mp (t5.mp h), fun h => t5.mpr (not_lt.mpr h)⟩

/-- Witness for C6 at a concrete input: the boundary amount 50000 and an
agent row with FYP 60000 and APE 200000. -/
theorem tier_bands_witness :
    (tier (50000 : ℚ) = TierBand.band1 ↔ (0 : ℚ) ≤ 50000 ∧ (50000 : ℚ) < 50000) ∧
    (tier (50000 : ℚ) = TierBand.band2 ↔ (50000 : ℚ) ≤ 50000 ∧ (50000 : ℚ) < 100000) ∧
    (tier (50000 : ℚ) = TierBand.band3 ↔ (100000 : ℚ) ≤ 50000 ∧ (50000 : ℚ) < 300000) ∧
    (tier (50000 : ℚ) = TierBand.band4 ↔ (300000 : ℚ) ≤ 50000 ∧ (50000 : ℚ) < 500000) ∧
    (tier (50000 : ℚ) = TierBand.band5 ↔ (500000 : ℚ) ≤ 50000) ∧
    tier (50000 : ℚ) = TierBand.band2 ∧
    fypTierOf ⟨0, 0, 0, 0, 60000, 200000⟩ = tier (⟨0, 0, 0, 0, 60000, 200000⟩ : AgentRow).fyp ∧
    apeTierOf ⟨0, 0, 0, 0, 60000, 200000⟩ = tier (⟨0, 0, 0, 0, 60000, 200000⟩ : AgentRow).ape :=
  tier_bands 50000 ⟨0, 0, 0, 0, 60000, 200000⟩ (by norm_num)

/-- C4: the retention baseline year of every agent equals the maximum of the
join year and 2022; joiners before 2022 are folded into the 2022 baseline
cohort, joiners in or after 2022 keep their join year. -/
theorem baseline_year_max (a : RAgent) :
    baselineYear a.join_year = max a.join_year 2022 ∧
    (a.join_year < 2022 → baselineYear a.join_year = 2022) ∧
    (2022 ≤ a.join_year → baselineYear a.join_year = a.join_year) := by
  unfold baselineYear
  split_ifs with h
  · exact ⟨(max_eq_right (le_of_lt h)).symm, fun _ => rfl,
      fun h2 => absurd h (not_lt.mpr h2)⟩
  · exact ⟨(max_eq_left (not_lt.mp h)).symm, fun h2 => absurd h2 h, fun _ => rfl⟩

/-- Witness for C4 at a concrete input: an agent who joined in 2019. -/
theorem baseline_year_max_witness :
    baselineYear 2019 = max 2019 2022 ∧
    ((2019 : Int) < 2022 → baselineYear 2019 = 2022) ∧
    ((2022 : Int) ≤ 2019 → baselineYear 2019 = 2019) :=
  baseline_year_max ⟨2019, "g", []⟩

/-- Every member of a cohort is active in the baseline year. -/
theorem cohortMembers_active {agents : List RAgent} {b : Int} :
    ∀ a ∈ cohortMembers agents b, isActive a b = true := by
  intro a ha
  unfold cohortMembers at ha
  rw [List.mem_filter] at ha
  have h2 := ha.2
  simp only [Bool.and_eq_true] at h2
  exact h2.2

/-- Every member of a cohort comes from the underlying agent list. -/
theorem cohortMembers_subset {agents : List RAgent} {b : Int} :
    ∀ a ∈ cohortMembers agents b, a ∈ agents := by
  intro a ha
  unfold cohortMembers at ha
  exact (List.mem_filter.mp ha).1

/-- An emitted cohort has a nonempty member list and is fully determined by
it. -/
theorem mkCohort_some {agents : List RAgent} {b : Int} {c : CohortRetention}
    (h : mkCohort agents b = some c) :
    (cohortMembers agents b).length ≠ 0 ∧
    c = ⟨b, (cohortMembers agents b).length,
      ((cohortMembers agents b).map (fun a => fypAt a b)).sum,
      [0, 1, 2, 3].map
        (fun k => retentionYear (cohortMembers agents b)
          ((cohortMembers agents b).length)
          (((cohortMembers agents b).map (fun a => fypAt a b)).sum) b k)⟩ := by
  unfold mkCohort at h
  split_ifs at h with h0
  exact ⟨h0, (Option.some.inj h).symm⟩

/-- The base FYP sum of a nonempty cohort is positive. -/
theorem base_fyp_pos {agents : List RAgent} {b : Int}
    (h : (cohortMembers agents b).length ≠ 0) :
    0 < ((cohortMembers agents b).map (fun a => fypAt a b)).sum := by
  have hne : cohortMembers agents b ≠ [] := by
    intro hh
    apply h
    rw [hh]
    rfl
  apply List.sum_pos
  · intro x hx
    rw [List.mem_map] at hx
    obtain ⟨a, ha, rfl⟩ := hx
    have hact := cohortMembers_active a ha
    unfold isActive at hact
    exact of_decide_eq_true hact
  · intro hnil
    apply hne
    simpa using hnil

/-- Every cohort in the retention engine output is the emitted cohort of
some baseline year over the agents of its group. -/
theorem retentionGroups_mem {agents : List RAgent}
    {gc : String × List CohortRetention} (hgc : gc ∈ retentionGroups agents)
    {c : CohortRetention} (hc : c ∈ gc.2) :
    ∃ b, mkCohort (agents.filter (fun a => a.group_value == gc.1)) b = some c := by
  unfold retentionGroups at hgc
  rw [List.mem_map] at hgc
  obtain ⟨g, hg, rfl⟩ := hgc
  simp only [List.mem_filterMap] at hc
  obtain ⟨b, hb, hcb⟩ := hc
  exact ⟨b, hcb⟩

/-- The offset zero retention entry of a nonempty cohort has both retention
ratios equal to one. -/
theorem retentionYear_zero {agents : List RAgent} {b : Int}
    (h : (cohortMembers agents b).length ≠ 0) :
    (retentionYear (cohortMembers agents b) (cohortMembers agents b).length
      (((cohortMembers agents b).map (fun a => fypAt a b)).sum) b 0).count_retention = 1 ∧
    (retentionYear (cohortMembers agents b) (cohortMembers agents b).length
      (((cohortMembers agents b).map (fun a => fypAt a b)).sum) b 0).fyp_retention =
      some 1 := by
  have hbf : ((cohortMembers agents b).map (fun a => fypAt a b)).sum ≠ 0 :=
    ne_of_gt (base_fyp_pos h)
  have hlen : ((cohortMembers agents b).length : ℚ) ≠ 0 := by exact_mod_cast h
  have hfil : (cohortMembers agents b).filter
      (fun a => isActive a (b + ((0 : Nat) : Int))) = cohortMembers agents b := by
    rw [List.filter_eq_self]
    intro a ha
    simpa using cohortMembers_active a ha
  have hmap : (cohortMembers agents b).map (fun a => fypAt a (b + ((0 : Nat) : Int))) =
      (cohortMembers agents b).map (fun a => fypAt a b) := by
    simp
  unfold retentionYear
  dsimp only
  constructor
  · rw [hfil]
    exact div_self hlen
  · rw [hmap, if_neg hbf, div_self hbf]

/-- C5: every cohort emitted by the retention engine carries retention
entries indexed by the offsets 0, 1, 2, 3, and the offset zero entry, the
baseline year measured against itself, always has count retention one and
fyp retention one. -/
theorem retention_offset_zero (agents : List RAgent)
    (gc : String × List CohortRetention) (hgc : gc ∈ retentionGroups agents)
    (c : CohortRetention) (hc : c ∈ gc.2)
    (r : RetentionYearData) (hr : r ∈ c.years) (hr0 : r.years_after_join = 0) :
    c.years.map RetentionYearData.years_after_join = [0, 1, 2, 3] ∧
    r.count_retention = 1 ∧ r.fyp_retention = some 1 := by
  obtain ⟨b, hb⟩ := retentionGroups_mem hgc hc
  obtain ⟨hlen, rfl⟩ := mkCohort_some hb
  refine ⟨rfl, ?_⟩
  simp only [List.map_cons, List.map_nil, List.mem_cons, List.not_mem_nil,
    or_false] at hr
  rcases hr with rfl | rfl | rfl | rfl
  · exact retentionYear_zero hlen
  · exact absurd hr0 (by norm_num [retentionYear])
  · exact absurd hr0 (by norm_num [retentionYear])
  · exact absurd hr0 (by norm_num [retentionYear])

/-- The retention engine output for agentUp alone is one group holding one
cohort. -/
theorem retentionGroups_agentUp : retentionGroups [agentUp] = [("g", [cohortUp])] := by
  have h1 : [agentUp].filter (fun a => a.group_value == "g") = [agentUp] := by
    norm_num [agentUp]
  have hcoh : mkCohort [agentUp] 2022 = some cohortUp := by
    norm_num [mkCohort, cohortMembers, cohortUp, agentUp, baselineYear, isActive,
      fypAt, retentionYear]
  unfold retentionGroups
  have h2 : distinctVals ([agentUp].map RAgent.group_value) = ["g"] := by
    norm_num [distinctVals, agentUp]
  rw [h2]
  simp only [List.map_cons, List.map_nil, h1]
  have h3 : distinctVals [baselineYear agentUp.join_year] = [2022] := by
    norm_num [distinctVals, agentUp, baselineYear]
  rw [h3]
  simp only [List.filterMap_cons, List.filterMap_nil, hcoh]

/-- The cohort the retention engine emits for agentUp alone, computed. -/
theorem mkCohort_agentUp : mkCohort [agentUp] 2022 = some cohortUp := by
  norm_num [mkCohort, cohortMembers, cohortUp, agentUp, baselineYear, isActive,
    fypAt, retentionYear]

/-- Witness for C5 on concrete data: the cohort of agentUp. -/
theorem retention_offset_zero_witness :
    cohortUp.years.map RetentionYearData.years_after_join = [0, 1, 2, 3] ∧
    (⟨2022, 0, 1, 1, 1, some 1⟩ : RetentionYearData).count_retention = 1 ∧
    (⟨2022, 0, 1, 1, 1, some 1⟩ : RetentionYearData).fyp_retention = some 1 :=
  retention_offset_zero [agentUp] ("g", [cohortUp])
    (by rw [retentionGroups_agentUp]; exact List.Mem.head _)
    cohortUp (List.Mem.head _)
    ⟨2022, 0, 1, 1, 1, some 1⟩ (List.Mem.head _) rfl

/-- A FYP lookup is nonnegative when all FYP entries of the agent are
nonnegative. -/
theorem fypAt_nonneg {a : RAgent} (h : ∀ pr ∈ a.fyps, 0 ≤ pr.2) (y : Int) :
    0 ≤ fypAt a y := by
  unfold fypAt
  cases hf : a.fyps.find? (fun pr => pr.1 == y) with
  | none => exact le_refl 0
  | some pr => exact h pr (List.mem_of_find?_eq_some hf)

/-- Bounds for one retention entry of a cohort with positive base FYP. -/
theorem retentionYear_bounds {ms : List RAgent} {len : Nat} {bf : ℚ} {b : Int}
    {k : Nat} (q : ℚ) (hms : ∀ a ∈ ms, ∀ y, 0 ≤ fypAt a y) (hbf : 0 < bf) :
    0 ≤ (retentionYear ms len bf b k).count_retention ∧
    ((retentionYear ms len bf b k).fyp_retention = some q → 0 ≤ q) ∧
    ((retentionYear ms len bf b k).fyp_retention = none ↔ bf = 0) := by
  have hsum : 0 ≤ (ms.map (fun a => fypAt a (b + (k : Int)))).sum := by
    apply List.sum_nonneg
    intro x hx
    rw [List.mem_map] at hx
    obtain ⟨a, ha, rfl⟩ := hx
    exact hms a ha _
  unfold retentionYear
  dsimp only
  rw [if_neg (ne_of_gt hbf)]
  refine ⟨div_nonneg (Nat.cast_nonneg _) (Nat.cast_nonneg _), ?_, ?_⟩
  · intro hq
    rw [← Option.some.inj hq]
    exact div_nonneg hsum (le_of_lt hbf)
  · constructor
    · intro hcontra
      exact absurd hcontra (by simp)
    · intro h0
      exact absurd h0 (ne_of_gt hbf)

/-- C7: retention ratios of emitted cohorts are nonnegative and uncapped,
with fyp retention above one reachable on concrete data; no cohort is
emitted for a baseline with no active agents, and fyp retention is null
exactly when the base FYP is zero, which never happens in an emitted
cohort. -/
theorem retention_bounds (agents : List RAgent)
    (hfyp : ∀ a ∈ agents, ∀ pr ∈ a.fyps, 0 ≤ pr.2)
    (gc : String × List CohortRetention) (hgc : gc ∈ retentionGroups agents)
    (c : CohortRetention) (hc : c ∈ gc.2)
    (r : RetentionYearData) (hr : r ∈ c.years) (q : ℚ)
    (ags2 : List RAgent) (b2 : Int) :
    c.base_count ≠ 0 ∧
    0 ≤ r.count_retention ∧
    (r.fyp_retention = some q → 0 ≤ q) ∧
    (r.fyp_retention = none ↔ c.base_fyp = 0) ∧
    (cohortMembers ags2 b2 = [] → mkCohort ags2 b2 = none) ∧
    mkCohort [agentUp] 2022 = some cohortUp ∧
    (cohortUp.years.getD 1 defaultRetentionYear).fyp_retention = some 2 ∧
    (1 : ℚ) < 2 := by
  obtain ⟨b, hb⟩ := retentionGroups_mem hgc hc
  obtain ⟨hlen, rfl⟩ := mkCohort_some hb
  have hms : ∀ a ∈ cohortMembers (agents.filter (fun a => a.group_value == gc.1)) b,
      ∀ y, 0 ≤ fypAt a y := by
    intro a ha y
    apply fypAt_nonneg
    apply hfyp
    exact (List.mem_filter.mp (cohortMembers_subset a ha)).1
  have hbfpos := base_fyp_pos hlen
  have hrb : 0 ≤ r.count_retention ∧ (r.fyp_retention = some q → 0 ≤ q) ∧
      (r.fyp_retention = none ↔
        ((cohortMembers (agents.filter (fun a => a.group_value == gc.1)) b).map
          (fun a => fypAt a b)).sum = 0) := by
    simp only [List.map_cons, List.map_nil, List.mem_cons, List.not_mem_nil,
      or_false] at hr
    rcases hr with rfl | rfl | rfl | rfl <;> exact retentionYear_bounds q hms hbfpos
  refine ⟨hlen, hrb.1, hrb.2.1, hrb.2.2, ?_, mkCohort_agentUp, rfl, by norm_num⟩
  intro hempty
  unfold mkCohort
  rw [hempty]
  simp

/-- Witness for C7 on concrete data: the offset one entry of the cohort of
agentUp, whose fyp retention is two. -/
theorem retention_bounds_witness :
    cohortUp.base_count ≠ 0 ∧
    0 ≤ (⟨2023, 1, 1, 2, 1, some 2⟩ : RetentionYearData).count_retention ∧
    ((⟨2023, 1, 1, 2, 1, some 2⟩ : RetentionYearData).fyp_retention = some 2 →
      0 ≤ (2 : ℚ)) ∧
    ((⟨2023, 1, 1, 2, 1, some 2⟩ : RetentionYearData).fyp_retention = none ↔
      cohortUp.base_fyp = 0) ∧
    (cohortMembers [] 0 = [] → mkCohort [] 0 = none) ∧
    mkCohort [agentUp] 2022 = some cohortUp ∧
    (cohortUp.years.getD 1 defaultRetentionYear).fyp_retention = some 2 ∧
    (1 : ℚ) < 2 :=
  retention_bounds [agentUp]
    (by
      norm_num [agentUp]
      rintro a b (⟨rfl, rfl⟩ | ⟨rfl, rfl⟩) <;> norm_num)
    ("g", [cohortUp])
    (by rw [retentionGroups_agentUp]; exact List.Mem.head _)
    cohortUp (List.Mem.head _)
    ⟨2023, 1, 1, 2, 1, some 2⟩ (List.Mem.tail _ (List.Mem.head _)) 2 [] 0

end Insurance
